import Mathlib

/-!
Shallow embedding of the filtering-and-concatenation core of the
repo-concat web application (TypeScript sources in `src/utils/patternUtils.ts`,
`src/utils/concatenationUtils.ts`, `src/utils/fileUtils.ts`, `src/types/index.ts`).

JavaScript strings are modelled as lists of characters (`Str`).  Case folding
is ASCII (`Char.toLower`), which covers every pattern and path the properties
below exercise.  The host `RegExp` facility, which the `regex` and `glob`
dialects of `matchesPattern` defer to, is embedded as an explicit parser to a
regex AST (`RAst`) plus a positional matcher implementing JavaScript `test`
search semantics with the `i` flag; a pattern the parser rejects models a
pattern whose compilation throws, which the source catches and turns into a
non-match.  `new Date()` inside `concatenateFiles` is modelled by an explicit
clock argument of type `JSDate`.
-/

namespace RepoConcat

/-- JavaScript strings as character lists. -/
abbrev Str := List Char

/-- Coerce a Lean string literal to the embedding's string type. -/
def str (s : String) : Str := s.data

/-- ASCII lower-casing of a whole string (JS `toLowerCase` on the inputs used here). -/
def toLowerStr (s : Str) : Str := s.map Char.toLower

/-- `Array.prototype.join(sep)` / `String.intercalate`. -/
def joinWith (sep : Str) : List Str → Str
  | [] => []
  | [x] => x
  | x :: y :: rest => x ++ sep ++ joinWith sep (y :: rest)

/-- `String.prototype.split(c)` for a single-character separator: n separators
give n+1 (possibly empty) segments, and the empty string gives one empty
segment, exactly as in JavaScript. -/
def splitChar (c : Char) : Str → List Str
  | [] => [[]]
  | x :: xs =>
    if x = c then [] :: splitChar c xs
    else
      match splitChar c xs with
      | [] => [[x]]
      | h :: t => (x :: h) :: t

/-- Decimal rendering of a natural number (`Number.prototype.toString`). -/
def natStr (n : Nat) : Str := (Nat.repr n).data

/-- Number of occurrences of `pat` as a (possibly overlapping) substring of `s`:
the number of start positions at which `pat` occurs. -/
def countOccur (pat s : Str) : Nat :=
  ((List.range (s.length + 1)).filter (fun i => pat.isPrefixOf (s.drop i))).length

/-- `String.prototype.includes`: does `pat` occur as a contiguous substring of `s`? -/
def isInfixStr (pat s : Str) : Bool :=
  (List.range (s.length + 1)).any (fun i => pat.isPrefixOf (s.drop i))

/-- Fuel-driven global replacement of a fixed pattern (`String.prototype.replace`
with a `/g` literal pattern). The fuel `s.length` always suffices because every
step consumes at least one character of the subject. -/
def replaceAllFuel (pat repl : Str) : Nat → Str → Str
  | 0, s => s
  | _ + 1, [] => []
  | n + 1, x :: xs =>
    if pat ≠ [] ∧ pat.isPrefixOf (x :: xs) then
      repl ++ replaceAllFuel pat repl n ((x :: xs).drop pat.length)
    else
      x :: replaceAllFuel pat repl n xs

/-- Replace every occurrence of `pat` in `s` by `repl`. -/
def replaceAll (pat repl s : Str) : Str := replaceAllFuel pat repl s.length s

/-- JavaScript line terminators, which `.` in a regular expression never matches. -/
def isLineTerm (c : Char) : Bool :=
  c = '\n' || c = '\r' || c = Char.ofNat 0x2028 || c = Char.ofNat 0x2029

/-! ### Regex AST and positional matcher (host `RegExp` with the `i` flag) -/

/-- Abstract syntax of the regular-expression subset the repository's patterns
use: literals, `.`, character classes, grouping, alternation, the `*`/`+`/`?`
quantifiers and the `^`/`$` anchors. -/
inductive RAst where
  | eps : RAst
  | chr : Char → RAst
  | anyc : RAst
  | cls : Bool → List (Char × Char) → RAst
  | star : RAst → RAst
  | cat : RAst → RAst → RAst
  | alt : RAst → RAst → RAst
  | caret : RAst
  | dollar : RAst
  deriving DecidableEq, Repr

/-- Case-insensitive (`i` flag) comparison of a pattern character with a
subject character, ASCII canonicalisation. -/
def foldEq (c d : Char) : Bool := c.toLower = d.toLower

/-- Does character `c` fall in the class range `(lo, hi)` under the `i` flag? -/
def inRange (c : Char) (r : Char × Char) : Bool :=
  (r.1 ≤ c && c ≤ r.2) || (r.1 ≤ c.toLower && c.toLower ≤ r.2)
    || (r.1 ≤ c.toUpper && c.toUpper ≤ r.2)

/-- Membership of `c` in a (possibly negated) character class. -/
def clsMatch (neg : Bool) (items : List (Char × Char)) (c : Char) : Bool :=
  let hit := items.any (inRange c)
  if neg then !hit else hit

/-- Union of the images of `f` over `S`, without duplicates. -/
def unionMap (f : Nat → List Nat) (S : List Nat) : List Nat :=
  ((S.map f).foldr (· ++ ·) []).dedup

/-- One closure step for the Kleene star: keep `S` and add everything `f`
reaches from `S`. -/
def starStep (f : Nat → List Nat) (S : List Nat) : List Nat :=
  (S ++ unionMap f S).dedup

/-- Iterate the closure step `n` times. -/
def starIter (f : Nat → List Nat) (S : List Nat) : Nat → List Nat
  | 0 => S
  | n + 1 => starIter f (starStep f S) n

/-- End positions reachable by matching `r` starting at position `p` of the
subject `full` (positions index between characters, `0 … full.length`). -/
def matchEnds (full : Str) : RAst → Nat → List Nat
  | .eps, p => [p]
  | .chr c, p =>
    match (full.drop p).head? with
    | some d => if foldEq c d then [p + 1] else []
    | none => []
  | .anyc, p =>
    match (full.drop p).head? with
    | some d => if isLineTerm d then [] else [p + 1]
    | none => []
  | .cls neg items, p =>
    match (full.drop p).head? with
    | some d => if clsMatch neg items d then [p + 1] else []
    | none => []
  | .cat r1 r2, p => unionMap (matchEnds full r2) (matchEnds full r1 p)
  | .alt r1 r2, p => (matchEnds full r1 p ++ matchEnds full r2 p).dedup
  | .star r, p => starIter (matchEnds full r) [p] (full.length + 2)
  | .caret, p => if p = 0 then [p] else []
  | .dollar, p => if p = full.length then [p] else []

/-- JavaScript `RegExp.prototype.test`: unanchored search — the regex may match
starting at any position of the subject. -/
def regexTest (r : RAst) (s : Str) : Bool :=
  (List.range (s.length + 1)).any (fun i => !(matchEnds s r i).isEmpty)

/-- Apply a postfix quantifier character to an atom. -/
def applyQuant (r : RAst) (q : Char) : RAst :=
  if q = '*' then .star r
  else if q = '+' then .cat r (.star r)
  else .alt r .eps

/-- Consume a (possibly stacked) run of postfix quantifiers after an atom. -/
def parseQuants (r : RAst) : Str → RAst × Str
  | [] => (r, [])
  | c :: cs =>
    if c = '*' || c = '+' || c = '?' then parseQuants (applyQuant r c) cs
    else (r, c :: cs)

/-- Parse the items of a character class up to (but not consuming) the closing
bracket; `none` models a class the host regex compiler rejects. -/
def parseClassItems : Nat → Str → Option (List (Char × Char) × Str)
  | 0, _ => none
  | _ + 1, [] => none
  | n + 1, s@(c :: rest) =>
    if c = ']' then some ([], s)
    else
      let base : Option (Char × Str) :=
        if c = '\\' then
          match rest with
          | [] => none
          | e :: rest2 => some (e, rest2)
        else some (c, rest)
      match base with
      | none => none
      | some (lo, rest2) =>
        match rest2 with
        | '-' :: d :: rest3 =>
          if d = ']' then
            match parseClassItems n rest2 with
            | none => none
            | some (items, rest4) => some ((lo, lo) :: ('-', '-') :: items, rest4)
          else
            let hiOpt : Option (Char × Str) :=
              if d = '\\' then
                match rest3 with
                | [] => none
                | e :: rest4 => some (e, rest4)
              else some (d, rest3)
            match hiOpt with
            | none => none
            | some (hi, rest4) =>
              if lo ≤ hi then
                match parseClassItems n rest4 with
                | none => none
                | some (items, rest5) => some ((lo, hi) :: items, rest5)
              else none
        | _ =>
          match parseClassItems n rest2 with
          | none => none
          | some (items, rest4) => some ((lo, lo) :: items, rest4)

mutual

/-- Parse an alternation (`a|b|…`). `none` models a compilation failure. -/
def parseRe : Nat → Str → Option (RAst × Str)
  | 0, _ => none
  | n + 1, s =>
    match parseSeq n s with
    | none => none
    | some (r1, rest) =>
      match rest with
      | '|' :: rest2 =>
        match parseRe n rest2 with
        | none => none
        | some (r2, rest3) => some (.alt r1 r2, rest3)
      | _ => some (r1, rest)

/-- Parse a concatenation of quantified atoms, stopping at `|`, `)` or the end. -/
def parseSeq : Nat → Str → Option (RAst × Str)
  | 0, _ => none
  | n + 1, s =>
    match s with
    | [] => some (.eps, [])
    | c :: _ =>
      if c = '|' || c = ')' then some (.eps, s)
      else
        match parseAtom n s with
        | none => none
        | some (r1, rest) =>
          let (r1q, rest2) := parseQuants r1 rest
          match parseSeq n rest2 with
          | none => none
          | some (r2, rest3) => some (.cat r1q r2, rest3)

/-- Parse one atom: a group, a class, an escape, an anchor, `.`, or a literal.
A dangling `(`/`[`/quantifier yields `none`, modelling the host compiler's
`SyntaxError`. -/
def parseAtom : Nat → Str → Option (RAst × Str)
  | 0, _ => none
  | n + 1, s =>
    match s with
    | [] => none
    | c :: rest =>
      if c = '(' then
        match rest with
        | '?' :: ':' :: rest2 =>
          match parseRe n rest2 with
          | none => none
          | some (r, rest3) =>
            match rest3 with
            | ')' :: rest4 => some (r, rest4)
            | _ => none
        | _ =>
          match parseRe n rest with
          | none => none
          | some (r, rest3) =>
            match rest3 with
            | ')' :: rest4 => some (r, rest4)
            | _ => none
      else if c = '[' then
        match rest with
        | '^' :: rest2 =>
          match parseClassItems (n + 1) rest2 with
          | none => none
          | some (items, rest3) =>
            match rest3 with
            | ']' :: rest4 => some (.cls true items, rest4)
            | _ => none
        | _ =>
          match parseClassItems (n + 1) rest with
          | none => none
          | some (items, rest3) =>
            match rest3 with
            | ']' :: rest4 => some (.cls false items, rest4)
            | _ => none
      else if c = '\\' then
        match rest with
        | [] => none
        | e :: rest2 => some (.chr e, rest2)
      else if c = '.' then some (.anyc, rest)
      else if c = '^' then some (.caret, rest)
      else if c = '$' then some (.dollar, rest)
      else if c = '*' || c = '+' || c = '?' then none
      else some (.chr c, rest)

end

/-- Compile a pattern string to a regex AST; `none` models a pattern on which
the host `new RegExp(pattern, 'i')` throws. -/
def parseRegex (p : Str) : Option RAst :=
  match parseRe (4 * (p.length + 2)) p with
  | some (r, []) => some r
  | _ => none

/-! ### Pattern matcher and exclusion engine (`src/utils/patternUtils.ts`) -/

/-- The four rule dialects (`PatternType` in `src/types/index.ts`). -/
inductive PatternType where
  | extension : PatternType
  | glob : PatternType
  | regex : PatternType
  | path : PatternType
  deriving DecidableEq, Repr

/-- `ExcludePattern` record from `src/types/index.ts`. -/
structure ExcludePattern where
  id : Str
  type : PatternType
  pattern : Str
  enabled : Bool
  description : Option Str
  deriving DecidableEq, Repr

/-- Anchored matching of the regex that `globToRegex` builds: every character
is a literal except `*` (→ `.*`) and `?` (→ `.`); since `.` under JavaScript
semantics never matches a line terminator, neither may the characters consumed
for `*` and `?`.  Both arguments arrive already lower-cased. -/
def globMatch : Str → Str → Bool
  | [], [] => true
  | [], _ :: _ => false
  | '*' :: ps, s =>
    globMatch ps s ||
      (match s with
       | [] => false
       | c :: cs => !isLineTerm c && globMatch ('*' :: ps) cs)
  | '?' :: ps, c :: cs => !isLineTerm c && globMatch ps cs
  | '?' :: _, [] => false
  | c :: ps, d :: ds => c = d && globMatch ps ds
  | _ :: _, [] => false
  termination_by p s => (s.length, p.length)

/-- `matchesPattern` from `src/utils/patternUtils.ts`: evaluate one rule
against one path. -/
def matchesPattern (filepath : Str) (pattern : ExcludePattern) : Bool :=
  if !pattern.enabled then false
  else
    let normalizedPath := toLowerStr filepath
    let normalizedPattern := toLowerStr pattern.pattern
    match pattern.type with
    | .extension =>
      let ext := match normalizedPattern with
        | '.' :: _ => normalizedPattern
        | _ => '.' :: normalizedPattern
      ext.isSuffixOf normalizedPath
    | .glob => globMatch normalizedPattern normalizedPath
    | .regex =>
      match parseRegex pattern.pattern with
      | none => false
      | some r => regexTest r filepath
    | .path => isInfixStr normalizedPattern normalizedPath

/-- `PatternMatchResult` from `src/types/index.ts`. -/
structure PatternMatchResult where
  shouldExclude : Bool
  matchedPattern : Option ExcludePattern
  deriving DecidableEq, Repr

/-- `shouldExclude` from `src/utils/patternUtils.ts`: first matching rule in
list order wins. -/
def shouldExclude (filepath : Str) : List ExcludePattern → PatternMatchResult
  | [] => ⟨false, none⟩
  | p :: rest =>
    if matchesPattern filepath p then ⟨true, some p⟩
    else shouldExclude filepath rest

/-- JavaScript `String.prototype.trim` for the whitespace the validator meets. -/
def trimStr (s : Str) : Str :=
  (s.dropWhile Char.isWhitespace).reverse.dropWhile Char.isWhitespace |>.reverse

/-- Is `c` a character the extension validator's `[a-zA-Z0-9]` accepts? -/
def isAlphaNum (c : Char) : Bool :=
  ('a' ≤ c && c ≤ 'z') || ('A' ≤ c && c ≤ 'Z') || ('0' ≤ c && c ≤ '9')

/-- `validatePattern` from `src/utils/patternUtils.ts` (authoring-time check;
the `glob` arm never fails because `globToRegex` cannot throw). -/
def validatePattern (pattern : Str) (type : PatternType) : Bool × Option Str :=
  if trimStr pattern = [] then (false, some (str "Pattern cannot be empty"))
  else
    match type with
    | .extension =>
      let body := match pattern with
        | '.' :: rest => rest
        | _ => pattern
      if body ≠ [] ∧ body.all isAlphaNum then (true, none)
      else (false, some (str "Extension must contain only letters and numbers"))
    | .glob => (true, none)
    | .regex =>
      match parseRegex pattern with
      | some _ => (true, none)
      | none => (false, some (str "Invalid regex"))
    | .path =>
      if isInfixStr (str "..") pattern then
        (false, some (str "Path traversal patterns are not allowed"))
      else (true, none)

/-! ### Concatenation engine (`src/utils/concatenationUtils.ts`) -/

/-- A host `Date` value, observed only through its two string renderings
(`toISOString` / `toLocaleString`). -/
structure JSDate where
  iso : Str
  locale : Str
  deriving DecidableEq, Repr

/-- `ProcessedFile` record from `src/types/index.ts`. -/
structure ProcessedFile where
  id : Str
  name : Str
  path : Str
  content : Str
  size : Nat
  type : Str
  lastModified : JSDate
  isTextFile : Bool
  deriving DecidableEq, Repr

/-- `headerFormat` union from `src/types/index.ts`: `'comment' | 'markdown' | 'custom'`. -/
inductive HeaderFormat where
  | comment : HeaderFormat
  | markdown : HeaderFormat
  | custom : HeaderFormat
  deriving DecidableEq, Repr

/-- `ConcatenationOptions` record from `src/types/index.ts`. -/
structure ConcatenationOptions where
  includeHeaders : Bool
  headerFormat : HeaderFormat
  customHeaderTemplate : Option Str
  separator : Str
  deriving DecidableEq, Repr

/-- The fifty-asterisk ruler used by the comment framing. -/
def stars50 : Str := List.replicate 50 '*'

/-- Newline, the string every `parts` entry is joined with. -/
def nl : Str := ['\n']

/-- The `'comment'` arm of `generateFileHeader`, factored out because the
`'custom'` arm falls back to it when no template is supplied. -/
def commentHeader (file : ProcessedFile) : Str :=
  joinWith nl [
    str "/*" ++ stars50,
    str " * File: " ++ file.path,
    str " * Size: " ++ natStr file.size ++ str " bytes",
    str " * Modified: " ++ file.lastModified.iso,
    str " " ++ stars50 ++ str "*/",
    []
  ]

/-- `generateFileHeader` from `src/utils/concatenationUtils.ts`. -/
def generateFileHeader (file : ProcessedFile) (format : HeaderFormat)
    (customTemplate : Option Str) : Str :=
  match format with
  | .comment => commentHeader file
  | .markdown =>
    joinWith nl [
      str "## " ++ file.path,
      [],
      str "- **Size:** " ++ natStr file.size ++ str " bytes",
      str "- **Modified:** " ++ file.lastModified.locale,
      [],
      str "```",
      []
    ]
  | .custom =>
    match customTemplate with
    | some t =>
      replaceAll (str "{modified}") file.lastModified.iso
        (replaceAll (str "{size}") (natStr file.size)
          (replaceAll (str "{name}") file.name
            (replaceAll (str "{path}") file.path t))) ++ nl
    | none => commentHeader file

/-- `generateFileFooter` from `src/utils/concatenationUtils.ts`. -/
def generateFileFooter (format : HeaderFormat) : Str :=
  match format with
  | .markdown => '\n' :: str "```" ++ nl
  | _ => []

/-- The document-level header `concatenateFiles` pushes first when
`includeHeaders` is set; `now` is the `new Date()` the source constructs. -/
def mainHeader (fileCount : Nat) (format : HeaderFormat) (now : JSDate) : Str :=
  joinWith nl (([
    str "/*" ++ (if format = HeaderFormat.markdown then [] else stars50),
    (if format = HeaderFormat.markdown then str "# File Concatenation Report"
     else str " * File Concatenation Report"),
    (if format = HeaderFormat.markdown then [] else str " * Generated: " ++ now.iso),
    (if format = HeaderFormat.markdown then str "Generated: " ++ now.locale
     else str " * Total Files: " ++ natStr fileCount),
    (if format = HeaderFormat.markdown then str "Total Files: " ++ natStr fileCount
     else str " " ++ stars50 ++ str "*/"),
    ([] : Str)
  ]).filter (fun l => !l.isEmpty))

/-- The `parts` entries one file contributes: optional per-file header, the
raw content, and the optional non-empty footer. -/
def fileBlock (file : ProcessedFile) (options : ConcatenationOptions) : List Str :=
  (if options.includeHeaders
   then [generateFileHeader file options.headerFormat options.customHeaderTemplate]
   else [])
  ++ [file.content]
  ++ (if options.includeHeaders then
        (let footer := generateFileFooter options.headerFormat
         if footer.isEmpty then [] else [footer])
      else [])

/-- The per-file `parts` entries in order, with the separator pushed after
every file except the last (`index < files.length - 1`). -/
def blocks (options : ConcatenationOptions) : List ProcessedFile → List Str
  | [] => []
  | [f] => fileBlock f options
  | f :: g :: rest => fileBlock f options ++ options.separator :: blocks options (g :: rest)

/-- The full `parts` array `concatenateFiles` builds for a non-empty file list. -/
def concatParts (files : List ProcessedFile) (options : ConcatenationOptions)
    (now : JSDate) : List Str :=
  (if options.includeHeaders
   then [mainHeader files.length options.headerFormat now]
   else [])
  ++ blocks options files

/-- `concatenateFiles` from `src/utils/concatenationUtils.ts`: empty input
short-circuits to the empty string, otherwise the `parts` entries are joined
with a newline. -/
def concatenateFiles (files : List ProcessedFile) (options : ConcatenationOptions)
    (now : JSDate) : Str :=
  if files.isEmpty then [] else joinWith nl (concatParts files options now)

/-! ### Statistics (`getConcatenationStats` in `src/utils/concatenationUtils.ts`) -/

/-- `calculateTotalSize`: sum of the `size` fields. -/
def calculateTotalSize (files : List ProcessedFile) : Nat :=
  files.foldl (fun total file => total + file.size) 0

/-- Bump the histogram count of key `e`, preserving JavaScript object key
insertion order. -/
def bumpType (ts : List (Str × Nat)) (e : Str) : List (Str × Nat) :=
  match ts with
  | [] => [(e, 1)]
  | (k, v) :: rest => if k = e then (k, v + 1) :: rest else (k, v) :: bumpType rest e

/-- `file.name.split('.').pop()?.toLowerCase() || 'unknown'`. -/
def extKey (name : Str) : Str :=
  let e := toLowerStr ((splitChar '.' name).getLastD [])
  if e.isEmpty then str "unknown" else e

/-- Result record of `getConcatenationStats`. -/
structure ConcatStats where
  fileCount : Nat
  totalSize : Nat
  totalLines : Nat
  fileTypes : List (Str × Nat)
  averageFileSize : Nat
  deriving DecidableEq, Repr

/-- JavaScript `Math.round(a / n)` on non-negative integers: half-up rounding. -/
def jsRoundDiv (a n : Nat) : Nat := (2 * a + n) / (2 * n)

/-- `getConcatenationStats` from `src/utils/concatenationUtils.ts`. -/
def getConcatenationStats (files : List ProcessedFile) : ConcatStats :=
  let totalSize := calculateTotalSize files
  { fileCount := files.length
    totalSize := totalSize
    totalLines := files.foldl (fun total file => total + (splitChar '\n' file.content).length) 0
    fileTypes := files.foldl (fun types file => bumpType types (extKey file.name)) []
    averageFileSize := if files.length > 0 then jsRoundDiv totalSize files.length else 0 }

/-! ### Text/binary classifier (`src/utils/fileUtils.ts`) -/

/-- The fixed text-extension allow-list `TEXT_EXTENSIONS`. -/
def TEXT_EXTENSIONS : List Str :=
  [str "txt", str "md", str "mdx", str "js", str "jsx", str "ts", str "tsx",
   str "html", str "css", str "scss", str "sass",
   str "json", str "xml", str "yaml", str "yml", str "sh", str "bash",
   str "py", str "rb", str "java", str "c", str "cpp",
   str "h", str "hpp", str "cs", str "go", str "rs", str "php", str "pl",
   str "swift", str "kt", str "config", str "conf",
   str "ini", str "csv", str "tsv", str "sql", str "graphql", str "env",
   str "gitignore", str "dockerignore",
   str "vue", str "svelte", str "lua", str "r", str "ps1", str "bat",
   str "cmd", str "asm", str "s", str "groovy",
   str "gradle", str "tf", str "toml", str "properties", str "plist"]

/-- `hasTextExtension`: the last `.`-split segment of the filename, lower-cased,
must be non-empty and on the allow-list. -/
def hasTextExtension (filename : Str) : Bool :=
  let extension := toLowerStr ((splitChar '.' filename).getLastD [])
  if extension.isEmpty then false else TEXT_EXTENSIONS.contains extension

/-- The declared-media-type test of `isTextFile` step 2. -/
def isTextMime (t : Str) : Bool :=
  (str "text/").isPrefixOf t
    || t = str "application/json"
    || t = str "application/xml"
    || t = str "application/javascript"

/-- A browser `File` as the classifier observes it: name, declared media type,
content bytes, and whether reading/decoding the 1024-byte sample succeeds
(`file.slice(0, 1024).text()` can reject). -/
structure JSFile where
  name : Str
  type : Str
  content : List Nat
  sampleOk : Bool
  deriving DecidableEq, Repr

/-- Does byte `b` fall in the rejected ranges of the binary-detection regex
`[\x00-\x08\x0E-\x1F\x7F]`? -/
def isBinaryByte (b : Nat) : Bool :=
  decide (b ≤ 0x08) || (decide (0x0E ≤ b) && decide (b ≤ 0x1F)) || decide (b = 0x7F)

/-- Does the sample contain any rejected control byte? -/
def hasBinaryByte (bs : List Nat) : Bool := bs.any isBinaryByte

/-- `isTextFile` from `src/utils/fileUtils.ts`: extension allow-list, then
declared media type, then a control-byte scan of the first 1024 bytes; a
failed sample read classifies as binary (`catch { return false }`). -/
def isTextFile (file : JSFile) : Bool :=
  if hasTextExtension file.name then true
  else if isTextMime file.type then true
  else if file.sampleOk then !hasBinaryByte (file.content.take 1024)
  else false

/-! ### Concrete sample values used by witnesses and counterexamples -/

/-- A fixed clock reading. -/
def sampleDate : JSDate := ⟨str "2024-01-01T00:00:00.000Z", str "1/1/2024, 12:00:00 AM"⟩

/-- A clock reading one millisecond later. -/
def sampleDate2 : JSDate := ⟨str "2024-01-01T00:00:00.001Z", str "1/1/2024, 12:00:01 AM"⟩

/-- A small processed file. -/
def sampleFileA : ProcessedFile :=
  ⟨str "a", str "a.ts", str "src/a.ts", str "alpha", 5, str "text/plain", sampleDate, true⟩

/-- A second small processed file. -/
def sampleFileB : ProcessedFile :=
  ⟨str "b", str "b.md", str "docs/b.md", str "beta", 4, str "text/markdown", sampleDate, true⟩

/-- Options with headers disabled. -/
def plainOpts : ConcatenationOptions := ⟨false, HeaderFormat.comment, none, str "\n---\n"⟩

/-- Options with headers enabled, comment framing. -/
def headerOpts : ConcatenationOptions := ⟨true, HeaderFormat.comment, none, str "\n\n"⟩

/-! ### Helper lemmas -/

theorem str_newline : str "\n" = ['\n'] := rfl

theorem splitChar_ne_nil (c : Char) (s : Str) : splitChar c s ≠ [] := by
  induction s with
  | nil => simp [splitChar]
  | cons x xs ih =>
    by_cases h : x = c
    · simp [splitChar, h]
    · simp only [splitChar, if_neg h]
      cases hs : splitChar c xs with
      | nil => exact absurd hs ih
      | cons hd tl => simp

theorem splitChar_length (c : Char) (s : Str) :
    (splitChar c s).length = s.count c + 1 := by
  induction s with
  | nil => simp [splitChar]
  | cons x xs ih =>
    by_cases h : x = c
    · simp [splitChar, h, List.count_cons, ih]
    · simp only [splitChar, if_neg h]
      cases hs : splitChar c xs with
      | nil => exact absurd hs (splitChar_ne_nil c xs)
      | cons hd tl =>
        rw [hs] at ih
        simp only [List.length_cons] at ih ⊢
        rw [List.count_cons]
        simp [h, Ne.symm h]
        omega

theorem splitChar_not_mem (c : Char) (s : Str) (h : c ∉ s) : splitChar c s = [s] := by
  induction s with
  | nil => simp [splitChar]
  | cons x xs ih =>
    have hx : ¬(x = c) := fun e => h (by simp [e])
    have hxs : c ∉ xs := fun m => h (List.mem_cons_of_mem _ m)
    simp [splitChar, hx, ih hxs]

theorem foldl_lines (files : List ProcessedFile) (acc : Nat) :
    files.foldl (fun t f => t + (splitChar '\n' f.content).length) acc
      = acc + (files.map (fun f => f.content.count '\n' + 1)).sum := by
  induction files generalizing acc with
  | nil => simp
  | cons f fs ih =>
    rw [List.foldl_cons, ih, splitChar_length]
    simp only [List.map_cons, List.sum_cons]
    omega

/-! ### Claims -/

/-- Claim C1: for every path and list of rules, `shouldExclude` iterates the
rules in list order and returns the first rule that matches the path as the
matched rule, even when several rules match; in particular for the rules
`[{extension, ts}, {path, test}]` against `"test/file.ts"` the matched rule is
the extension rule at index 0, not the path-substring rule. -/
theorem claim_C1_first_match :
    (∀ (path : Str) (rules : List ExcludePattern),
      (shouldExclude path rules).matchedPattern
          = List.find? (fun r => matchesPattern path r) rules
        ∧ (shouldExclude path rules).shouldExclude
          = (List.find? (fun r => matchesPattern path r) rules).isSome)
    ∧ shouldExclude (str "test/file.ts")
        [⟨str "1", PatternType.extension, str "ts", true, none⟩,
         ⟨str "2", PatternType.path, str "test", true, none⟩]
      = ⟨true, some ⟨str "1", PatternType.extension, str "ts", true, none⟩⟩ := by
  constructor
  · intro path rules
    induction rules with
    | nil => simp [shouldExclude, List.find?]
    | cons r rest ih =>
      by_cases h : matchesPattern path r
      · simp [shouldExclude, List.find?, h]
      · simpa [shouldExclude, List.find?, h] using ih
  · decide

/-- Claim C2 counterexample: with `includeHeaders = false`, separator `"X"`
and a first file whose content is `"X"`, the separator occurs twice as a
substring of the output, not `len(files) - 1 = 1`; the claim is false for
separators that also occur in file content. -/
theorem claim_C2_counterexample :
    countOccur (str "X")
      (concatenateFiles
        [⟨str "1", str "f1", str "f1", str "X", 1, str "", sampleDate, true⟩,
         ⟨str "2", str "f2", str "f2", str "Y", 1, str "", sampleDate, true⟩]
        ⟨false, HeaderFormat.comment, none, str "X"⟩ sampleDate) = 2 := by
  decide

/-- Claim C2 (amended): `concatenateFiles` emits the separator exactly
`len(files) - 1 = 1` time for two files — as one `parts` entry strictly
between the two file blocks and never after the last; with
`includeHeaders = false` the parts are exactly
`[f1.content, separator, f2.content]`.  (The substring-occurrence count of
the separator in the joined output can exceed 1 when the separator also
occurs inside file content.) -/
theorem claim_C2_separator_emission :
    ∀ (f1 f2 : ProcessedFile) (opts : ConcatenationOptions) (now : JSDate),
      concatParts [f1, f2] opts now
          = (if opts.includeHeaders then [mainHeader 2 opts.headerFormat now] else [])
            ++ fileBlock f1 opts ++ opts.separator :: fileBlock f2 opts
        ∧ (opts.includeHeaders = false →
            concatParts [f1, f2] opts now = [f1.content, opts.separator, f2.content]) := by
  intro f1 f2 opts now
  constructor
  · simp [concatParts, blocks]
  · intro h
    simp [concatParts, blocks, fileBlock, h]

/-- Witness for claim C2 (amended) at concrete inputs. -/
theorem claim_C2_separator_emission_witness :
    concatParts [sampleFileA, sampleFileB] plainOpts sampleDate
      = [sampleFileA.content, plainOpts.separator, sampleFileB.content] :=
  (claim_C2_separator_emission sampleFileA sampleFileB plainOpts sampleDate).2 rfl

/-- Claim C3: concatenating a single file with headers disabled reproduces
that file's content exactly, and concatenating the empty list yields the
empty string for any options. -/
theorem claim_C3_single_roundtrip :
    ∀ (f : ProcessedFile) (opts : ConcatenationOptions) (now : JSDate),
      (opts.includeHeaders = false → concatenateFiles [f] opts now = f.content)
        ∧ concatenateFiles [] opts now = [] := by
  intro f opts now
  refine ⟨fun h => ?_, rfl⟩
  simp [concatenateFiles, concatParts, blocks, fileBlock, h, joinWith]

/-- Witness for claim C3 at concrete inputs. -/
theorem claim_C3_single_roundtrip_witness :
    concatenateFiles [sampleFileA] plainOpts sampleDate = sampleFileA.content :=
  (claim_C3_single_roundtrip sampleFileA plainOpts sampleDate).1 rfl

/-- Claim C4 counterexample: with `includeHeaders = true` the output of
`concatenateFiles` embeds `new Date().toISOString()` in the document header,
so two runs on identical file/options arguments but at clock readings one
millisecond apart produce different outputs — the function is not
deterministic in its declared inputs. -/
theorem claim_C4_counterexample :
    concatenateFiles [sampleFileA] headerOpts sampleDate
      ≠ concatenateFiles [sampleFileA] headerOpts sampleDate2 := by
  decide

/-- Claim C4 (amended): the core functions are pure functions of their
arguments, and `concatenateFiles` is deterministic given identical inputs
whenever `includeHeaders = false`: its output is then independent of the
clock.  (With `includeHeaders = true` the document header embeds the current
generation time, so determinism fails across distinct instants.) -/
theorem claim_C4_determinism :
    ∀ (files : List ProcessedFile) (opts : ConcatenationOptions) (t t' : JSDate),
      opts.includeHeaders = false →
        concatenateFiles files opts t = concatenateFiles files opts t' := by
  intro files opts t t' h
  simp [concatenateFiles, concatParts, h]

/-- Witness for claim C4 (amended) at concrete inputs. -/
theorem claim_C4_determinism_witness :
    concatenateFiles [sampleFileA] plainOpts sampleDate
      = concatenateFiles [sampleFileA] plainOpts sampleDate2 :=
  claim_C4_determinism [sampleFileA] plainOpts sampleDate sampleDate2 rfl

/-- Claim C5: the regex dialect tests the pattern verbatim as a
case-insensitive regular expression against the original-case path
(`"\.(test|spec)\.js$"` matches `"app.test.js"`, `"app.spec.js"` and the
upper-case `"APP.TEST.JS"`), and for every path an uncompilable pattern —
such as `"[invalid("` — never raises and evaluates to non-match. -/
theorem claim_C5_regex_dialect :
    (∀ (path pat idv : Str) (en : Bool) (d : Option Str),
        parseRegex pat = none →
          matchesPattern path ⟨idv, PatternType.regex, pat, en, d⟩ = false)
      ∧ parseRegex (str "[invalid(") = none
      ∧ matchesPattern (str "app.test.js")
          ⟨str "1", PatternType.regex, str "\\.(test|spec)\\.js$", true, none⟩ = true
      ∧ matchesPattern (str "app.spec.js")
          ⟨str "1", PatternType.regex, str "\\.(test|spec)\\.js$", true, none⟩ = true
      ∧ matchesPattern (str "APP.TEST.JS")
          ⟨str "1", PatternType.regex, str "\\.(test|spec)\\.js$", true, none⟩ = true := by
  refine ⟨?_, by decide, by decide, by decide, by decide⟩
  intro path pat idv en d h
  cases en
  · simp [matchesPattern]
  · simp [matchesPattern, h]

/-- Witness for claim C5 at concrete inputs: the uncompilable pattern
`"[invalid("` does not match a concrete path. -/
theorem claim_C5_regex_dialect_witness :
    matchesPattern (str "src/app.js")
      ⟨str "1", PatternType.regex, str "[invalid(", true, none⟩ = false :=
  claim_C5_regex_dialect.1 (str "src/app.js") (str "[invalid(") (str "1") true none
    (by decide)

/-- Claim C6: for a file whose name is not on the text-extension allow-list
and whose declared media type is not a text type, the classifier consults only
the first 1024 bytes of content and classifies as text exactly when the
sample read succeeds and contains no byte in `0x00–0x08`, `0x0E–0x1F`, `0x7F`;
in particular a failed sample read classifies as binary (fail-closed). -/
theorem claim_C6_binary_detection :
    ∀ f : JSFile,
      hasTextExtension f.name = false →
      isTextMime f.type = false →
        isTextFile f = (f.sampleOk && !hasBinaryByte (f.content.take 1024)) := by
  intro f h1 h2
  simp [isTextFile, h1, h2]

/-- Witness for claim C6 at a concrete input. -/
theorem claim_C6_binary_detection_witness :
    isTextFile ⟨str "data.bin", str "application/octet-stream", [65, 0, 66], true⟩
      = ((true : Bool) && !hasBinaryByte ([65, 0, 66].take 1024)) :=
  claim_C6_binary_detection
    ⟨str "data.bin", str "application/octet-stream", [65, 0, 66], true⟩
    (by decide) (by decide)

/-- Claim C7: `totalLines` sums, per file, the number of `\n`-delimited
segments of the content — one more than the newline count, so a trailing
newline contributes an extra empty segment; a file whose content is
`"line1\nline2\n"` contributes exactly 3. -/
theorem claim_C7_total_lines :
    ∀ files : List ProcessedFile,
      (getConcatenationStats files).totalLines
          = (files.map (fun f => f.content.count '\n' + 1)).sum
        ∧ (getConcatenationStats
            [⟨str "1", str "f.txt", str "f.txt", str "line1\nline2\n", 12, str "",
              sampleDate, true⟩]).totalLines = 3 := by
  intro files
  refine ⟨?_, by decide⟩
  simp only [getConcatenationStats]
  simpa using foldl_lines files 0

/-- Claim C8: empty inputs are never an error — `concatenateFiles [] = ""`,
`shouldExclude p [] = {false, no rule}` and `getConcatenationStats []` is the
all-zero record with an empty type histogram. -/
theorem claim_C8_empty_inputs :
    ∀ (opts : ConcatenationOptions) (now : JSDate) (p : Str),
      concatenateFiles [] opts now = []
        ∧ shouldExclude p [] = ⟨false, none⟩
        ∧ getConcatenationStats [] = ⟨0, 0, 0, [], 0⟩ :=
  fun _ _ _ => ⟨rfl, rfl, rfl⟩

/-- Claim C9: all emitted pieces are joined with a single newline, so with
headers disabled the concatenation of two files is exactly
`f1.content + "\n" + separator + "\n" + f2.content` — the separator is never
flush against file content. -/
theorem claim_C9_newline_join :
    ∀ (f1 f2 : ProcessedFile) (opts : ConcatenationOptions) (now : JSDate),
      opts.includeHeaders = false →
        concatenateFiles [f1, f2] opts now
          = f1.content ++ str "\n" ++ opts.separator ++ str "\n" ++ f2.content := by
  intro f1 f2 opts now h
  simp [concatenateFiles, concatParts, blocks, fileBlock, h, joinWith, nl,
    str_newline, List.append_assoc]

/-- Witness for claim C9 at concrete inputs. -/
theorem claim_C9_newline_join_witness :
    concatenateFiles [sampleFileA, sampleFileB] plainOpts sampleDate
      = sampleFileA.content ++ str "\n" ++ plainOpts.separator ++ str "\n"
        ++ sampleFileB.content :=
  claim_C9_newline_join sampleFileA sampleFileB plainOpts sampleDate rfl

/-- Claim C10: for a filename containing no `.`, the classifier's extension
check compares the entire lower-cased filename against the allow-list, so a
dotless file whose whole name is on the list (e.g. `"go"`) is classified as
text at step 1, regardless of declared media type, content, or whether the
content sample could be read. -/
theorem claim_C10_dotless_allowlist :
    ∀ name : Str, '.' ∉ name →
      (hasTextExtension name
          = (!(toLowerStr name).isEmpty && TEXT_EXTENSIONS.contains (toLowerStr name)))
        ∧ (∀ (t : Str) (content : List Nat) (ok : Bool),
            TEXT_EXTENSIONS.contains (toLowerStr name) = true →
              isTextFile ⟨name, t, content, ok⟩ = true) := by
  intro name hdot
  have hsplit : splitChar '.' name = [name] := splitChar_not_mem _ _ hdot
  constructor
  · simp only [hasTextExtension, hsplit, List.getLastD]
    cases h : (toLowerStr name).isEmpty <;> simp [h]
  · intro t content ok h
    by_cases hn : toLowerStr name = []
    · rw [hn] at h
      exact absurd h (by decide)
    · have hext : hasTextExtension name = true := by
        simp only [hasTextExtension, hsplit, List.getLastD]
        have : (toLowerStr name).isEmpty = false := by
          simpa [List.isEmpty_iff] using hn
        simp [this]
        simpa using h
      simp [isTextFile, hext]

/-- Witness for claim C10 at a concrete input: a dotless file named `"go"`
with a binary media type, an unreadable sample, and a control byte in its
content is still classified as text. -/
theorem claim_C10_dotless_allowlist_witness :
    isTextFile ⟨str "go", str "application/octet-stream", [0, 1], false⟩ = true :=
  (claim_C10_dotless_allowlist (str "go") (by decide)).2
    (str "application/octet-stream") [0, 1] false (by decide)

end RepoConcat
